import Mathlib

/-!
Verification development for the GPO Analysis tool.

The repository ships a React frontend (under frontend/src) and documentation;
the Python backend analyzers (backend/app) are referenced by the docs and the
frontend but their sources are not part of this snapshot.  Backend components
(report parser, precedence resolver, conflict detector, duplicate detector,
object query) are therefore modelled from the design specification; frontend
logic (health score, upload drop filter, result rendering guards) is embedded
directly from the JSX sources.
-/

namespace GPOAnalysis

/-! ## Data model (spec section 3) -/

/-- Modelled from the spec: scope of a policy setting, Computer or User. -/
inductive Scope
  | computer
  | user
  deriving DecidableEq, Repr

/-- Modelled from the spec: state of a policy setting. -/
inductive SettingState
  | enabled
  | disabled
  | notConfigured
  deriving DecidableEq, Repr

/-- Modelled from the spec: a PolicySetting belonging to one GPO, with scope,
hierarchical category, name, state, optional value and a stable setting key
used for cross-GPO equality. -/
structure PolicySetting where
  scope : Scope
  category : String
  name : String
  state : SettingState
  value : Option String
  key : String
  deriving DecidableEq, Repr

/-- Modelled from the spec: a Link associates a GPO with an organizational
target distinguished name, with an integer order, an enforced flag and an
enabled flag. -/
structure Link where
  target : String
  order : Nat
  enforced : Bool
  enabled : Bool
  deriving DecidableEq, Repr

/-- Modelled from the spec: a canonical GPO record produced by the parser.
The optional security filter lists principals; absence means the GPO applies
to Authenticated Users by default. -/
structure GPO where
  id : String
  name : String
  domain : String
  settings : List PolicySetting
  links : List Link
  securityFilter : Option (List String)
  deriving DecidableEq, Repr

/-! ## Precedence Resolver (spec section 4.2; backend sources absent) -/

/-- Modelled from the spec: one level of the organizational chain from the
domain root down to the leaf OU, with its block-inheritance marker. -/
structure ChainLevel where
  dn : String
  blockInheritance : Bool
  deriving DecidableEq, Repr

/-- Modelled from the spec: one entry of the resolved precedence list, naming
the applying GPO, the level that contributed the link, and whether the link
was enforced. -/
structure ResolvedEntry where
  gpoId : String
  location : String
  enforced : Bool
  deriving DecidableEq, Repr

/-- Modelled from the spec: security filtering (spec 4.2 step 5).  A GPO with
no filter applies by default; when group memberships are unknown the GPO is
treated as applying rather than guessing deny. -/
def filterApplies (g : GPO) (memberships : Option (List String)) : Bool :=
  match g.securityFilter, memberships with
  | none, _ => true
  | some _, none => true
  | some ps, some ms => ps.any fun p => ms.contains p

/-- Modelled from the spec: the enabled links of the candidate GPOs whose
target matches a level distinguished name (spec 4.2 step 1). -/
def levelLinks (gpos : List GPO) (dn : String) : List (String × Link) :=
  gpos.flatMap fun g => g.links.filterMap fun l =>
    if l.target == dn && l.enabled then some (g.id, l) else none

/-- Insertion step of the within-level ranking. -/
def insertDescByOrder (x : String × Link) : List (String × Link) → List (String × Link)
  | [] => [x]
  | y :: ys => if y.2.order ≤ x.2.order then x :: y :: ys else y :: insertDescByOrder x ys

/-- Modelled from the spec: within one level the candidates are ranked so
that the link carrying the lowest order number is applied last and therefore
wins at that level (spec 4.2 step 2 together with the precedence tie-break
property of spec section 8). -/
def sortDescByOrder (xs : List (String × Link)) : List (String × Link) :=
  xs.foldr insertDescByOrder []

/-- Modelled from the spec: the precedence resolver (spec 4.2).  Levels are
processed from the root-most level to the leaf; non-enforced links of a level
are dropped when a strictly lower OU in the chain carries block-inheritance;
enforced links are collected separately and appended after the normal pass in
ascending order of the level distance from the root.  The last entry of the
returned list has the highest precedence. -/
def resolve (chain : List ChainLevel) (gpos : List GPO)
    (memberships : Option (List String)) : List ResolvedEntry :=
  let cands := gpos.filter fun g => filterApplies g memberships
  let normal := chain.enum.flatMap fun p =>
    if (chain.drop (p.1 + 1)).any (fun lvl => lvl.blockInheritance) then [] else
      (sortDescByOrder ((levelLinks cands p.2.dn).filter fun x => !x.2.enforced)).map
        fun x => ⟨x.1, p.2.dn, false⟩
  let enforcedPass := chain.flatMap fun lvl =>
    (sortDescByOrder ((levelLinks cands lvl.dn).filter fun x => x.2.enforced)).map
      fun x => ⟨x.1, lvl.dn, true⟩
  normal ++ enforcedPass

/-! ## Conflict Detector (spec section 4.3; backend sources absent) -/

/-- Modelled from the spec: semantic value normalization used by the
detectors; numeric values compare numerically (leading zeros dropped) and
textual values compare case-insensitively. -/
def normNum (cs : List Char) : List Char :=
  let ds := cs.dropWhile fun c => c == '0'
  if ds.isEmpty then ['0'] else ds

/-- Canonical form of an optional setting value for semantic equality. -/
def canonVal (v : Option String) : Option String :=
  v.map fun s =>
    if !s.data.isEmpty && s.data.all Char.isDigit then ⟨normNum s.data⟩
    else ⟨s.data.map Char.toLower⟩

/-- One conflicting-policy entry of a conflict report: the GPO and the state
and value it defines for the disputed key. -/
structure CEntry where
  gpoId : String
  state : SettingState
  value : Option String
  deriving DecidableEq, Repr

/-- Modelled from the spec: all (scope, setting-key) pairs defined by the
selected GPOs, each pair listed once. -/
def conflictKeys (gpos : List GPO) : List (Scope × String) :=
  (gpos.flatMap fun g => g.settings.map fun s => (s.scope, s.key)).dedup

/-- Modelled from the spec: the per-GPO definitions of one (scope, key) pair,
skipping NotConfigured states. -/
def conflictEntries (gpos : List GPO) (sk : Scope × String) : List CEntry :=
  gpos.filterMap fun g =>
    (g.settings.find? fun s =>
        s.scope == sk.1 && s.key == sk.2 && !(s.state == SettingState.notConfigured)).map
      fun s => ⟨g.id, s.state, s.value⟩

/-- Modelled from the spec: a conflict exists when at least two GPOs define
the key with semantically different non-NotConfigured states or values. -/
def isConflict (es : List CEntry) : Bool :=
  2 ≤ ((es.map fun e => (e.state, canonVal e.value)).dedup).length

/-- The most precedent link order a GPO carries, if it has links at all. -/
def minLinkOrder (g : GPO) : Option Nat :=
  (g.links.map Link.order).min?

/-- Strict comparison of optional link orders: a GPO without links never
beats another GPO. -/
def ltOptOrder : Option Nat → Option Nat → Bool
  | some a, some b => a < b
  | some _, none => true
  | none, _ => false

/-- Helper: a winner exists only when exactly one candidate is left. -/
def singleWinner : List GPO → Option String
  | [g] => some g.id
  | _ => none

/-- Modelled from the spec: without a resolvable organizational context the
winner falls back to comparison of the conflicting GPOs own link orders; a
winner is declared only when one candidate strictly beats every other one,
otherwise the winner is left unset. -/
def fallbackWinner (cands : List GPO) : Option String :=
  singleWinner (cands.filter fun g =>
    cands.all fun h => h.id == g.id || ltOptOrder (minLinkOrder g) (minLinkOrder h))

/-- Modelled from the spec: the winning GPO of a conflict.  With a context
(the resolver precedence order) the last listed conflicting GPO wins; without
one the link-order fallback is used. -/
def winnerFor (gpos : List GPO) (ctx : Option (List String)) (es : List CEntry) :
    Option String :=
  match ctx with
  | some order => (order.filter fun id => es.any fun e => e.gpoId == id).getLast?
  | none => fallbackWinner (gpos.filter fun g => es.any fun e => e.gpoId == g.id)

/-- Modelled from the spec: a conflict report with the disputed key, the
per-GPO definitions and the optional winning GPO. -/
structure ConflictReport where
  scope : Scope
  key : String
  entries : List CEntry
  winningGpo : Option String
  deriving DecidableEq, Repr

/-- Modelled from the spec: the conflict detector; a pure function grouping
the settings of the selected GPOs by (scope, key) and reporting every key
defined with semantically different non-NotConfigured values. -/
def detectConflicts (gpos : List GPO) (ctx : Option (List String)) :
    List ConflictReport :=
  (conflictKeys gpos).filterMap fun sk =>
    let es := conflictEntries gpos sk
    if isConflict es then some ⟨sk.1, sk.2, es, winnerFor gpos ctx es⟩ else none

/-! ## Duplicate Detector (spec section 4.4; backend sources absent) -/

/-- Modelled from the spec: the identity of a setting for duplicate
detection, scope, key, state and semantically canonical value. -/
def settingSig (s : PolicySetting) : Scope × String × SettingState × Option String :=
  (s.scope, s.key, s.state, canonVal s.value)

/-- Modelled from the spec: a duplicate report for one identical setting,
naming every GPO that defines it. -/
structure DuplicateReport where
  scope : Scope
  key : String
  state : SettingState
  value : Option String
  gpoIds : List String
  deriving DecidableEq, Repr

/-- The setting identity a duplicate report is about. -/
def reportSig (r : DuplicateReport) : Scope × String × SettingState × Option String :=
  (r.scope, r.key, r.state, r.value)

/-- All distinct setting identities appearing in the selection. -/
def duplicateSigs (gpos : List GPO) :
    List (Scope × String × SettingState × Option String) :=
  (gpos.flatMap fun g => g.settings.map settingSig).dedup

/-- The GPOs of the selection defining a given setting identity. -/
def sigOwners (gpos : List GPO)
    (sig : Scope × String × SettingState × Option String) : List String :=
  gpos.filterMap fun g =>
    if g.settings.any fun s => settingSig s == sig then some g.id else none

/-- Modelled from the spec: class (a) of the duplicate detector, an identical
setting (same scope, key, state and value up to semantic equality) defined in
two or more GPOs is flagged once, regardless of precedence. -/
def detectDuplicates (gpos : List GPO) : List DuplicateReport :=
  (duplicateSigs gpos).filterMap fun sig =>
    if 2 ≤ (sigOwners gpos sig).length then
      some ⟨sig.1, sig.2.1, sig.2.2.1, sig.2.2.2, sigOwners gpos sig⟩
    else none

/-- Modelled from the spec: class (b) of the duplicate detector, a GPO whose
non-empty setting set is contained in another GPO setting set. -/
def isSettingSubsetOf (g1 g2 : GPO) : Bool :=
  !g1.settings.isEmpty &&
    g1.settings.all fun s => g2.settings.any fun t => settingSig t == settingSig s

/-- Modelled from the spec: redundant-GPO candidates, pairs whose first
component is subsumed by the second. -/
def redundantGpoCandidates (gpos : List GPO) : List (String × String) :=
  gpos.flatMap fun g1 => gpos.filterMap fun g2 =>
    if g1.id != g2.id && isSettingSubsetOf g1 g2 then some (g1.id, g2.id) else none

/-! ## Frontend: winning-GPO section guard (ConflictTable.jsx) -/

/-- ConflictTable.jsx renders the Winning GPO section behind the guard
conflict.winning_gpo, so an absent or empty winner hides the section. -/
def showWinningSection (w : Option String) : Bool :=
  match w with
  | none => false
  | some s => !(s == "")

/-! ## Report Parser (spec section 4.1; backend sources absent) -/

/-- Modelled from the spec: a node of a semi-structured exported document. -/
inductive RawNode
  | elem (tag : String) (children : List RawNode)
  | text (s : String)

/-- Modelled from the spec: a raw exported document. -/
structure RawDocument where
  nodes : List RawNode

/-- Modelled from the spec: the caller-supplied format hint of parse. -/
inductive FormatHint
  | htmlHint
  | xmlHint
  | noHint
  deriving DecidableEq, Repr

/-- Modelled from the spec: the three supported input families plus the
unrecognized case, detected by structural inspection. -/
inductive DocFormat
  | domainXml
  | domainHtml
  | singleObjectHtml
  | unknown
  deriving DecidableEq, Repr

/-- Modelled from the spec: a parse error naming the offending file and the
reason. -/
structure ParseError where
  file : String
  reason : String
  deriving DecidableEq, Repr

/-- Modelled from the spec: the canonical record produced by the parser,
with the recorded ingestion timestamp. -/
structure ParsedGPO where
  id : String
  name : String
  domain : String
  settings : List PolicySetting
  links : List Link
  appliedPolicies : List String
  origin : DocFormat
  ingestedAt : Nat
  deriving DecidableEq, Repr

/-- Text content of the first child element with the given tag. -/
def childText (tag : String) (children : List RawNode) : Option String :=
  children.findSome? fun n =>
    match n with
    | .elem t [.text s] => if t == tag then some s else none
    | _ => none

/-- Children of the first child element with the given tag. -/
def childElem (tag : String) (children : List RawNode) : Option (List RawNode) :=
  children.findSome? fun n =>
    match n with
    | .elem t cs => if t == tag then some cs else none
    | _ => none

/-- State text of the export formats mapped to the canonical state. -/
def parseStateText (s : String) : SettingState :=
  if s == "Enabled" then .enabled
  else if s == "Disabled" then .disabled
  else .notConfigured

/-- Boolean text of the export formats. -/
def parseBoolText (s : String) : Bool :=
  s == "true" || s == "Yes"

/-- Decimal digits to a number. -/
def digitsToNat (cs : List Char) : Nat :=
  cs.foldl (fun acc c => acc * 10 + (c.toNat - 48)) 0

/-- Numeric text of the export formats; non-numeric text degrades to 0. -/
def parseNatText (s : String) : Nat :=
  if s.data.all Char.isDigit then digitsToNat s.data else 0

/-- Settings of one scope section: every well-formed Setting element yields a
canonical PolicySetting, carrying key, name, category, state and optional
value. -/
def parseSettings (scope : Scope) (ns : List RawNode) : List PolicySetting :=
  ns.filterMap fun n =>
    match n with
    | .elem "Setting" [.text key, .text nm, .text cat, .text st] =>
        some ⟨scope, cat, nm, parseStateText st, none, key⟩
    | .elem "Setting" [.text key, .text nm, .text cat, .text st, .text v] =>
        some ⟨scope, cat, nm, parseStateText st, some v, key⟩
    | _ => none

/-- Link table rows of a domain-wide export. -/
def parseLinksSection (ns : List RawNode) : List Link :=
  ns.filterMap fun n =>
    match n with
    | .elem "LinkTo" [.text target, .text ord, .text enf, .text enb] =>
        some ⟨target, parseNatText ord, parseBoolText enf, parseBoolText enb⟩
    | _ => none

/-- Direct applied-policy names of a single-object report. -/
def parseApplied (ns : List RawNode) : List String :=
  ns.filterMap fun n =>
    match n with
    | .elem "AppliedGPO" [.text nm] => some nm
    | _ => none

/-- Modelled from the spec: format detection by structural inspection of the
element hierarchy, never by file extension. -/
def sniffFormat (doc : RawDocument) : DocFormat :=
  match doc.nodes with
  | [.elem "GPO" _] => .domainXml
  | [.elem "html" children] =>
      if (childElem "AppliedGPOs" children).isSome then .singleObjectHtml
      else if (childElem "GPOReport" children).isSome then .domainHtml
      else .unknown
  | _ => .unknown

/-- Shared extraction of a domain-wide export once its section list is
located; a missing name is a parse error, a missing identifier is replaced by
a deterministic synthetic one derived from the name. -/
def parseDomain (fileName : String) (fmt : DocFormat) (children : List RawNode)
    (t : Nat) : Except ParseError ParsedGPO :=
  match childText "Name" children with
  | none => .error ⟨fileName, "missing GPO name"⟩
  | some nm =>
      .ok ⟨(childText "Identifier" children).getD ("GEN-" ++ nm), nm,
           (childText "Domain" children).getD "",
           parseSettings .computer ((childElem "Computer" children).getD []) ++
             parseSettings .user ((childElem "User" children).getD []),
           parseLinksSection ((childElem "LinksTo" children).getD []),
           [], fmt, t⟩

/-- Modelled from the spec: parse(rawDocument, formatHint) returning a
canonical GPO record or a ParseError; the two domain-wide families nest
their sections differently and a single-object report populates the direct
applied-policy list instead of links.  The ingestion instant t is recorded
in the produced record and nowhere else. -/
def parse (fileName : String) (doc : RawDocument) (_hint : FormatHint) (t : Nat) :
    Except ParseError ParsedGPO :=
  if doc.nodes.isEmpty then .error ⟨fileName, "empty document"⟩ else
  match sniffFormat doc, doc.nodes with
  | .domainXml, [.elem _ children] => parseDomain fileName .domainXml children t
  | .domainHtml, [.elem _ children] =>
      match childElem "GPOReport" children with
      | some inner => parseDomain fileName .domainHtml inner t
      | none => .error ⟨fileName, "missing report section"⟩
  | .singleObjectHtml, [.elem _ children] =>
      match childElem "AppliedGPOs" children with
      | some inner =>
          match childText "ObjectName" children with
          | some nm =>
              .ok ⟨"OBJ-" ++ nm, nm, (childText "Domain" children).getD "",
                   [], [], parseApplied inner, .singleObjectHtml, t⟩
          | none => .error ⟨fileName, "missing object name"⟩
      | none => .error ⟨fileName, "missing applied section"⟩
  | _, _ => .error ⟨fileName, "unrecognized document structure"⟩

/-- The canonical record with the recorded ingestion timestamp cleared, the
view under which parse results are compared. -/
def stripIngest (r : ParsedGPO) : ParsedGPO :=
  { r with ingestedAt := 0 }

/-! ## Batch upload (spec sections 4.1 and 5; backend sources absent) -/

/-- Modelled from the spec: one uploaded file. -/
structure RawFile where
  name : String
  doc : RawDocument
  hint : FormatHint

/-- Modelled from the spec: a batch of N files is processed per file; the
outcome of each file is the parse of that file alone. -/
def processBatch (files : List RawFile) (t : Nat) :
    List (String × Except ParseError ParsedGPO) :=
  files.map fun f => (f.name, parse f.name f.doc f.hint t)

/-- Modelled from the spec: the aggregate upload response read by the client,
a success flag, an optional message and a per-file error list. -/
structure UploadResponse where
  success : Bool
  message : Option String
  errors : List String
  deriving DecidableEq, Repr

/-- The per-file error strings of a batch result. -/
def fileErrors (results : List (String × Except ParseError ParsedGPO)) :
    List String :=
  results.filterMap fun r =>
    match r.2 with
    | .error e => some (e.file ++ ": " ++ e.reason)
    | .ok _ => none

/-- Modelled from the spec: the aggregated success/error response of one
upload batch. -/
def batchResponse (files : List RawFile) (t : Nat) : UploadResponse :=
  let errs := fileErrors (processBatch files t)
  ⟨errs.isEmpty, if errs.isEmpty then none else some "Some files failed to parse", errs⟩

/-- The alert text built by handleUpload in App.jsx when the aggregate
response is not a success: the message followed by the joined errors array. -/
def uploadAlertMessage (resp : UploadResponse) : Option String :=
  if resp.success then none
  else some ((resp.message.getD "Upload failed") ++
    (if 0 < resp.errors.length then
      "\n\nDetails:\n" ++ String.intercalate "\n" resp.errors
    else ""))

/-! ## Object Query (spec section 4.6; backend sources absent) -/

/-- Modelled from the spec: one applied GPO of a query result with the
reason, the contributing location and the enforcement flag. -/
structure AppliedGpoEntry where
  name : String
  reason : String
  location : Option String
  enforced : Bool
  deriving DecidableEq, Repr

/-- Modelled from the spec: the match type of an object query. -/
inductive MatchType
  | direct
  | linked
  | noMatch
  deriving DecidableEq, Repr

/-- Modelled from the spec: the result shape of the object query. -/
structure QueryResult where
  matchType : MatchType
  appliedGpos : List AppliedGpoEntry
  deriving DecidableEq, Repr

/-- Modelled from the spec: the repository view the query needs, the ingested
single-object reports and the stored link graph. -/
structure Repository where
  objectReports : List (String × List AppliedGpoEntry)
  gpos : List GPO
  deriving DecidableEq, Repr

/-- Prefix test on the underlying character lists. -/
def strStartsWith (s pre : String) : Bool :=
  pre.data.isPrefixOf s.data

/-- Split on commas over the underlying character list. -/
def splitOnComma (cs : List Char) : List (List Char) :=
  cs.foldr (fun c acc =>
    match acc with
    | [] => if c == ',' then [[], []] else [[c]]
    | cur :: rest => if c == ',' then [] :: cur :: rest else (c :: cur) :: rest) [[]]

/-- A distinguished-name component of an organizational path. -/
def isOrgComponent (c : String) : Bool :=
  strStartsWith c "OU=" || strStartsWith c "DC="

/-- Modelled from the spec: a search term parses as an organizational path
when every comma-separated component is an OU or DC component and at least
one OU component is present; the chain is returned root-most first. -/
def parseOrgPath (term : String) : Option (List ChainLevel) :=
  let comps := (splitOnComma term.data).map fun cs => (⟨cs⟩ : String)
  if comps.all isOrgComponent && comps.any fun c => strStartsWith c "OU=" then
    some (comps.reverse.map fun c => ⟨c, false⟩)
  else none

/-- The applied-GPO row derived from one resolver entry. -/
def toAppliedEntry (r : ResolvedEntry) : AppliedGpoEntry :=
  ⟨r.gpoId, if r.enforced then "enforced link" else "linked at level",
   some r.location, r.enforced⟩

/-- Modelled from the spec: the object query; a direct match against an
ingested single-object report, else resolution over the stored link graph
when the term parses as an organizational path, else an empty no-match
result, never an error. -/
def query (term : String) (repo : Repository) : QueryResult :=
  match repo.objectReports.find? fun p => p.1 == term with
  | some p => ⟨.direct, p.2⟩
  | none =>
      match parseOrgPath term with
      | some chain => ⟨.linked, (resolve chain repo.gpos none).map toAppliedEntry⟩
      | none => ⟨.noMatch, []⟩

/-! ## Frontend: query result rendering guard (ObjectAnalysis.jsx) -/

/-- ObjectAnalysis.jsx renders the applied-GPO table when the list is
non-empty and the no-applied-GPOs empty state otherwise; a search always
renders a result, never an error view. -/
def objectResultsShowTable (r : QueryResult) : Bool :=
  0 < r.appliedGpos.length

/-! ## Frontend: Dashboard health score (Dashboard.jsx) -/

/-- Health score computed by Dashboard.jsx:
Math.max(0, 100 - (critical*10 + high*5 + medium*2 + low) * 2). -/
def healthScore (critical high medium low : Int) : Int :=
  max 0 (100 - (critical * 10 + high * 5 + medium * 2 + low) * 2)

/-! ## Frontend: upload drop-zone filter (FileUpload.jsx) -/

/-- Suffix test on the underlying character lists, the semantics of the
JavaScript String.endsWith used by FileUpload.jsx. -/
def strEndsWith (s suffix : String) : Bool :=
  suffix.data.isSuffixOf s.data

/-- Extension test used by handleDrop in FileUpload.jsx: the file name must
end in .htm, .html or .xml. -/
def isGpoExportName (n : String) : Bool :=
  strEndsWith n ".htm" || strEndsWith n ".html" || strEndsWith n ".xml"

/-- handleDrop from FileUpload.jsx: dropped files are filtered by extension
and appended to the selected list only when at least one survives. -/
def handleDrop (selected dropped : List String) : List String :=
  let files := dropped.filter isGpoExportName
  if 0 < files.length then selected ++ files else selected

/-- handleFileSelect from FileUpload.jsx: files chosen through the picker are
appended with no extension filter. -/
def handleFileSelect (selected chosen : List String) : List String :=
  selected ++ chosen

end GPOAnalysis

namespace GPOAnalysis

/-- C9: the dashboard health score equals
max(0, 100 - (critical*10 + high*5 + medium*2 + low)*2); for non-negative
issue counts it lies between 0 and 100, equals 100 exactly when all four
counts are zero, and is monotonically non-increasing in each count. -/
theorem healthScore_formula_range_monotone (c h m l : Int)
    (hc : 0 ≤ c) (hh : 0 ≤ h) (hm : 0 ≤ m) (hl : 0 ≤ l) :
    healthScore c h m l = max 0 (100 - (c * 10 + h * 5 + m * 2 + l) * 2) ∧
    0 ≤ healthScore c h m l ∧ healthScore c h m l ≤ 100 ∧
    (healthScore c h m l = 100 ↔ c = 0 ∧ h = 0 ∧ m = 0 ∧ l = 0) ∧
    (∀ c2, c ≤ c2 → healthScore c2 h m l ≤ healthScore c h m l) ∧
    (∀ h2, h ≤ h2 → healthScore c h2 m l ≤ healthScore c h m l) ∧
    (∀ m2, m ≤ m2 → healthScore c h m2 l ≤ healthScore c h m l) ∧
    (∀ l2, l ≤ l2 → healthScore c h m l2 ≤ healthScore c h m l) := by
  unfold healthScore
  refine ⟨rfl, ?_, ?_, ?_, ?_, ?_, ?_, ?_⟩
  · simp only [max_def]; split <;> omega
  · simp only [max_def]; split <;> omega
  · simp only [max_def]; split <;> omega
  · intro c2 hc2; simp only [max_def]; split <;> split <;> omega
  · intro h2 hh2; simp only [max_def]; split <;> split <;> omega
  · intro m2 hm2; simp only [max_def]; split <;> split <;> omega
  · intro l2 hl2; simp only [max_def]; split <;> split <;> omega

/-- Witness for C9 at concrete counts 1, 1, 1, 1. -/
theorem healthScore_formula_range_monotone_witness :
    0 ≤ healthScore 1 1 1 1 ∧ healthScore 1 1 1 1 ≤ 100 := by
  have h := healthScore_formula_range_monotone 1 1 1 1
    (by decide) (by decide) (by decide) (by decide)
  exact ⟨h.2.1, h.2.2.1⟩

/-- C10: only dropped files whose names end in .htm, .html or .xml are added
to the selected list; when no dropped file matches, the selected list is
unchanged; every matching dropped file is added; files chosen via the picker
are appended without the extension filter. -/
theorem fileUpload_drop_filter (selected dropped chosen : List String) :
    (∀ f ∈ handleDrop selected dropped,
      f ∈ selected ∨ (f ∈ dropped ∧ isGpoExportName f = true)) ∧
    ((∀ f ∈ dropped, isGpoExportName f = false) →
      handleDrop selected dropped = selected) ∧
    (∀ f ∈ dropped, isGpoExportName f = true → f ∈ handleDrop selected dropped) ∧
    handleFileSelect selected chosen = selected ++ chosen := by
  refine ⟨?_, ?_, ?_, rfl⟩
  · intro f hf
    simp only [handleDrop] at hf
    split at hf
    · rcases List.mem_append.mp hf with h | h
      · exact Or.inl h
      · exact Or.inr (List.mem_filter.mp h)
    · exact Or.inl hf
  · intro hnone
    unfold handleDrop
    have hfil : dropped.filter isGpoExportName = [] := by
      apply List.filter_eq_nil_iff.mpr
      intro a ha
      simp [hnone a ha]
    simp [hfil]
  · intro f hf hmatch
    unfold handleDrop
    have hmem : f ∈ dropped.filter isGpoExportName :=
      List.mem_filter.mpr ⟨hf, hmatch⟩
    have hpos : 0 < (dropped.filter isGpoExportName).length :=
      List.length_pos.mpr (List.ne_nil_of_mem hmem)
    simp only [hpos, if_pos]
    exact List.mem_append.mpr (Or.inr hmem)

/-- C1: for the chain Root to Sales with a domain-level enforced link L1 of
order 1 and Sales marked block-inheritance carrying its own non-enforced link
L2 of order 1, the resolver returns exactly the GPO of L2 followed by the GPO
of L1: the enforced link passes through block-inheritance and is appended
after the normal pass. -/
theorem resolver_enforced_passes_block_inheritance (g1 g2 : String) :
    (resolve
      [⟨"DC=example,DC=com", false⟩, ⟨"OU=Sales,DC=example,DC=com", true⟩]
      [⟨g1, "L1", "example.com", [], [⟨"DC=example,DC=com", 1, true, true⟩], none⟩,
       ⟨g2, "L2", "example.com", [], [⟨"OU=Sales,DC=example,DC=com", 1, false, true⟩], none⟩]
      none).map ResolvedEntry.gpoId = [g2, g1] := by
  rfl

/-- C2: with two enabled non-enforced links of orders 1 and 2 at the same OU
level whose GPOs give the same computer-scope key different values, the
resolver lists the order-2 GPO before the order-1 GPO, and the conflict
detector run with that precedence context reports the order-1 GPO as the
winner. -/
theorem precedence_tie_break_lowest_order_wins (g1 g2 k v1 v2 : String)
    (hv : canonVal (some v1) ≠ canonVal (some v2)) :
    (resolve [⟨"OU=Sales,DC=example,DC=com", false⟩]
        [⟨g1, "A", "d", [⟨Scope.computer, "cat", "n", SettingState.enabled, some v1, k⟩],
            [⟨"OU=Sales,DC=example,DC=com", 1, false, true⟩], none⟩,
         ⟨g2, "B", "d", [⟨Scope.computer, "cat", "n", SettingState.enabled, some v2, k⟩],
            [⟨"OU=Sales,DC=example,DC=com", 2, false, true⟩], none⟩]
        none).map ResolvedEntry.gpoId = [g2, g1] ∧
    detectConflicts
        [⟨g1, "A", "d", [⟨Scope.computer, "cat", "n", SettingState.enabled, some v1, k⟩],
            [⟨"OU=Sales,DC=example,DC=com", 1, false, true⟩], none⟩,
         ⟨g2, "B", "d", [⟨Scope.computer, "cat", "n", SettingState.enabled, some v2, k⟩],
            [⟨"OU=Sales,DC=example,DC=com", 2, false, true⟩], none⟩]
        (some [g2, g1]) =
      [⟨Scope.computer, k,
        [⟨g1, SettingState.enabled, some v1⟩, ⟨g2, SettingState.enabled, some v2⟩],
        some g1⟩] := by
  constructor
  · rfl
  · have hne : (SettingState.enabled, canonVal (some v1)) ∉
        [(SettingState.enabled, canonVal (some v2))] := by simp [hv]
    simp [detectConflicts, conflictKeys, conflictEntries, isConflict, winnerFor,
      List.dedup_cons_of_mem, List.dedup_cons_of_not_mem hne]

/-- Witness for C2 with concrete identifiers and the values 0 and 1. -/
theorem precedence_tie_break_lowest_order_wins_witness :
    detectConflicts
        [⟨"GA", "A", "d", [⟨Scope.computer, "cat", "n", SettingState.enabled, some "0", "K"⟩],
            [⟨"OU=Sales,DC=example,DC=com", 1, false, true⟩], none⟩,
         ⟨"GB", "B", "d", [⟨Scope.computer, "cat", "n", SettingState.enabled, some "1", "K"⟩],
            [⟨"OU=Sales,DC=example,DC=com", 2, false, true⟩], none⟩]
        (some ["GB", "GA"]) =
      [⟨Scope.computer, "K",
        [⟨"GA", SettingState.enabled, some "0"⟩, ⟨"GB", SettingState.enabled, some "1"⟩],
        some "GA"⟩] :=
  (precedence_tie_break_lowest_order_wins "GA" "GB" "K" "0" "1" (by decide)).2

/-- A permutation does not change the single-candidate winner. -/
lemma singleWinner_perm {l1 l2 : List GPO} (p : l1.Perm l2) :
    singleWinner l1 = singleWinner l2 := by
  cases l1 with
  | nil => rw [← p.nil_eq]
  | cons a t =>
    cases t with
    | nil => rw [← p.singleton_eq]
    | cons b t2 =>
      have hlen := p.length_eq
      cases l2 with
      | nil => simp at hlen
      | cons c u =>
        cases u with
        | nil => simp at hlen
        | cons d u2 => rfl

/-- The fallback winner is either unset or a candidate that strictly beats
every other candidate by link order. -/
lemma fallbackWinner_cases (cands : List GPO) :
    fallbackWinner cands = none ∨
    ∃ g ∈ cands, fallbackWinner cands = some g.id ∧
      ∀ h ∈ cands, h.id ≠ g.id →
        ltOptOrder (minLinkOrder g) (minLinkOrder h) = true := by
  unfold fallbackWinner
  cases hfil : cands.filter fun g =>
      cands.all fun h => h.id == g.id || ltOptOrder (minLinkOrder g) (minLinkOrder h) with
  | nil => exact Or.inl rfl
  | cons g rest =>
    cases rest with
    | cons g2 rest2 => exact Or.inl rfl
    | nil =>
      right
      have hmem : g ∈ cands.filter fun g =>
          cands.all fun h => h.id == g.id || ltOptOrder (minLinkOrder g) (minLinkOrder h) := by
        rw [hfil]; exact List.mem_singleton_self g
      have hsp := List.mem_filter.mp hmem
      refine ⟨g, hsp.1, rfl, ?_⟩
      intro h hh hne
      have hall := List.all_eq_true.mp hsp.2 h hh
      rcases Bool.or_eq_true_iff.mp hall with hbeq | hlt
      · exact absurd (eq_of_beq hbeq) hne
      · exact hlt

/-- Permutations preserve the any test. -/
lemma perm_any_congr {α : Type} {l1 l2 : List α} (p : l1.Perm l2) (f : α → Bool) :
    l1.any f = l2.any f := by
  apply Bool.eq_iff_iff.mpr
  simp only [List.any_eq_true]
  constructor
  · rintro ⟨x, hx, hfx⟩; exact ⟨x, p.mem_iff.mp hx, hfx⟩
  · rintro ⟨x, hx, hfx⟩; exact ⟨x, p.mem_iff.mpr hx, hfx⟩

/-- Permutations preserve the all test. -/
lemma perm_all_congr {α : Type} {l1 l2 : List α} (p : l1.Perm l2) (f : α → Bool) :
    l1.all f = l2.all f := by
  apply Bool.eq_iff_iff.mpr
  simp only [List.all_eq_true]
  exact ⟨fun h x hx => h x (p.mem_iff.mpr hx), fun h x hx => h x (p.mem_iff.mp hx)⟩

/-- Permuting the entries does not change whether they form a conflict. -/
lemma isConflict_perm {es1 es2 : List CEntry} (p : es1.Perm es2) :
    isConflict es1 = isConflict es2 := by
  unfold isConflict
  rw [((p.map fun e => (e.state, canonVal e.value)).dedup).length_eq]

/-- Permuting the candidates does not change the fallback winner. -/
lemma fallbackWinner_perm {c1 c2 : List GPO} (p : c1.Perm c2) :
    fallbackWinner c1 = fallbackWinner c2 := by
  unfold fallbackWinner
  apply singleWinner_perm
  have h1 : (c2.filter fun g =>
      c1.all fun h => h.id == g.id || ltOptOrder (minLinkOrder g) (minLinkOrder h)) =
      c2.filter fun g =>
      c2.all fun h => h.id == g.id || ltOptOrder (minLinkOrder g) (minLinkOrder h) :=
    List.filter_congr fun a _ => perm_all_congr p _
  exact h1 ▸ p.filter _

/-- The declared winner depends on the precedence context and the entry set,
never on the ordering of the selected GPO list. -/
lemma winnerFor_perm {gpos1 gpos2 : List GPO} {es1 es2 : List CEntry}
    (pg : gpos1.Perm gpos2) (pe : es1.Perm es2) (ctx : Option (List String)) :
    winnerFor gpos1 ctx es1 = winnerFor gpos2 ctx es2 := by
  have hany : ∀ s : String,
      (es1.any fun e => e.gpoId == s) = es2.any fun e => e.gpoId == s :=
    fun s => perm_any_congr pe _
  cases ctx with
  | some order =>
    show (order.filter fun id => es1.any fun e => e.gpoId == id).getLast? =
        (order.filter fun id => es2.any fun e => e.gpoId == id).getLast?
    rw [List.filter_congr fun a _ => hany a]
  | none =>
    show fallbackWinner (gpos1.filter fun g => es1.any fun e => e.gpoId == g.id) =
        fallbackWinner (gpos2.filter fun g => es2.any fun e => e.gpoId == g.id)
    apply fallbackWinner_perm
    have h1 : (gpos2.filter fun g => es1.any fun e => e.gpoId == g.id) =
        gpos2.filter fun g => es2.any fun e => e.gpoId == g.id :=
      List.filter_congr fun a _ => hany a.id
    exact h1 ▸ pg.filter _

/-- View of a conflict report that forgets the ordering of the per-GPO entry
list but keeps key, entries and declared winner. -/
def normalizeReport (r : ConflictReport) :
    Scope × String × Multiset CEntry × Option String :=
  (r.scope, r.key, (r.entries : Multiset CEntry), r.winningGpo)

/-- C3: the conflict detector is a pure function of its inputs and is
symmetric under permutation of the selected GPO list: the multiset of
reports, each taken with its per-GPO entry multiset and its declared winner,
is identical for any permutation of the input, with the precedence context
held fixed. -/
theorem conflict_detection_perm_invariant (gpos1 gpos2 : List GPO)
    (ctx : Option (List String)) (hp : gpos1.Perm gpos2) :
    (((detectConflicts gpos1 ctx).map normalizeReport :
        List (Scope × String × Multiset CEntry × Option String)) :
      Multiset (Scope × String × Multiset CEntry × Option String)) =
    ((detectConflicts gpos2 ctx).map normalizeReport :
        List (Scope × String × Multiset CEntry × Option String)) := by
  apply Multiset.coe_eq_coe.mpr
  unfold detectConflicts
  rw [List.map_filterMap, List.map_filterMap]
  have hkeys : (conflictKeys gpos1).Perm (conflictKeys gpos2) := by
    unfold conflictKeys
    exact (hp.flatMap_right _).dedup
  have hG : ∀ sk : Scope × String,
      Option.map normalizeReport
        (if isConflict (conflictEntries gpos1 sk) then
           some (⟨sk.1, sk.2, conflictEntries gpos1 sk,
                  winnerFor gpos1 ctx (conflictEntries gpos1 sk)⟩ : ConflictReport)
         else none) =
      Option.map normalizeReport
        (if isConflict (conflictEntries gpos2 sk) then
           some (⟨sk.1, sk.2, conflictEntries gpos2 sk,
                  winnerFor gpos2 ctx (conflictEntries gpos2 sk)⟩ : ConflictReport)
         else none) := by
    intro sk
    have hes : (conflictEntries gpos1 sk).Perm (conflictEntries gpos2 sk) :=
      hp.filterMap _
    have hc : isConflict (conflictEntries gpos1 sk) =
        isConflict (conflictEntries gpos2 sk) := isConflict_perm hes
    have hw : winnerFor gpos1 ctx (conflictEntries gpos1 sk) =
        winnerFor gpos2 ctx (conflictEntries gpos2 sk) := winnerFor_perm hp hes ctx
    have hent : ((conflictEntries gpos1 sk : List CEntry) : Multiset CEntry) =
        ((conflictEntries gpos2 sk : List CEntry) : Multiset CEntry) :=
      Multiset.coe_eq_coe.mpr hes
    rw [hc]
    cases isConflict (conflictEntries gpos2 sk)
    · rfl
    · simp [normalizeReport, hent, hw]
  refine (hkeys.filterMap _).trans (List.Perm.of_eq ?_)
  exact List.filterMap_congr fun sk _ => hG sk

/-- Witness for C3: swapping two concrete GPO records leaves the normalized
report multiset unchanged. -/
theorem conflict_detection_perm_invariant_witness :
    (((detectConflicts
        [⟨"A", "GA", "d", [⟨Scope.computer, "c", "n", SettingState.enabled, some "1", "K"⟩],
           [⟨"OU=X", 1, false, true⟩], none⟩,
         ⟨"B", "GB", "d", [⟨Scope.computer, "c", "n", SettingState.disabled, some "1", "K"⟩],
           [⟨"OU=Y", 2, false, true⟩], none⟩] none).map normalizeReport :
        List (Scope × String × Multiset CEntry × Option String)) :
      Multiset (Scope × String × Multiset CEntry × Option String)) =
    ((detectConflicts
        [⟨"B", "GB", "d", [⟨Scope.computer, "c", "n", SettingState.disabled, some "1", "K"⟩],
           [⟨"OU=Y", 2, false, true⟩], none⟩,
         ⟨"A", "GA", "d", [⟨Scope.computer, "c", "n", SettingState.enabled, some "1", "K"⟩],
           [⟨"OU=X", 1, false, true⟩], none⟩] none).map normalizeReport :
        List (Scope × String × Multiset CEntry × Option String)) :=
  conflict_detection_perm_invariant _ _ none (List.Perm.swap _ _ _)

/-- Unpacking membership in the conflict report list. -/
lemma mem_detectConflicts {gpos : List GPO} {ctx : Option (List String)}
    {r : ConflictReport} (hr : r ∈ detectConflicts gpos ctx) :
    ∃ sk ∈ conflictKeys gpos,
      isConflict (conflictEntries gpos sk) = true ∧
      r = ⟨sk.1, sk.2, conflictEntries gpos sk,
           winnerFor gpos ctx (conflictEntries gpos sk)⟩ := by
  unfold detectConflicts at hr
  rcases List.mem_filterMap.mp hr with ⟨sk, hsk, hF⟩
  simp only at hF
  split at hF
  · exact ⟨sk, hsk, by assumption, (Option.some_inj.mp hF).symm⟩
  · cases hF

/-- C8: for conflicts detected without an organizational context, the report
either leaves the winning GPO unset (and the UI then hides the Winning GPO
section), or names a conflicting GPO that strictly beats every other
conflicting GPO by link order; an ambiguous fallback never produces a
guessed winner. -/
theorem conflict_ambiguous_winner_unset (gpos : List GPO) (r : ConflictReport)
    (hr : r ∈ detectConflicts gpos none) :
    (r.winningGpo = none ∧ showWinningSection r.winningGpo = false) ∨
    (∃ g ∈ gpos, r.winningGpo = some g.id ∧
      (∃ e ∈ r.entries, e.gpoId = g.id) ∧
      ∀ h ∈ gpos, (∃ e ∈ r.entries, e.gpoId = h.id) → h.id ≠ g.id →
        ltOptOrder (minLinkOrder g) (minLinkOrder h) = true) := by
  rcases mem_detectConflicts hr with ⟨sk, hsk, hconf, hre⟩
  subst hre
  show (winnerFor gpos none (conflictEntries gpos sk) = none ∧ _) ∨ _
  have hwin : winnerFor gpos none (conflictEntries gpos sk) =
      fallbackWinner (gpos.filter fun g =>
        (conflictEntries gpos sk).any fun e => e.gpoId == g.id) := rfl
  rcases fallbackWinner_cases (gpos.filter fun g =>
      (conflictEntries gpos sk).any fun e => e.gpoId == g.id) with hnone | ⟨g, hg, hw, hdom⟩
  · left
    constructor
    · rw [hwin, hnone]
    · show showWinningSection (winnerFor gpos none (conflictEntries gpos sk)) = false
      rw [hwin, hnone]
      rfl
  · right
    have hgf := List.mem_filter.mp hg
    refine ⟨g, hgf.1, by rw [hwin, hw], ?_, ?_⟩
    · rcases List.any_eq_true.mp hgf.2 with ⟨e, he, hbe⟩
      exact ⟨e, he, eq_of_beq hbe⟩
    · intro h hh hex hne
      have hhf : h ∈ gpos.filter fun g =>
          (conflictEntries gpos sk).any fun e => e.gpoId == g.id := by
        refine List.mem_filter.mpr ⟨hh, ?_⟩
        rcases hex with ⟨e, he, heq⟩
        exact List.any_eq_true.mpr ⟨e, he, beq_iff_eq.mpr heq⟩
      exact hdom h hhf hne

/-- Witness for C8 on a conflict between two GPOs whose links carry the same
order: the winner stays unset. -/
theorem conflict_ambiguous_winner_unset_witness :
    (⟨Scope.computer, "K", [⟨"A", SettingState.enabled, some "1"⟩,
        ⟨"B", SettingState.disabled, some "1"⟩], none⟩ : ConflictReport).winningGpo = none ∧
    showWinningSection none = false := by
  have hmem : (⟨Scope.computer, "K", [⟨"A", SettingState.enabled, some "1"⟩,
      ⟨"B", SettingState.disabled, some "1"⟩], none⟩ : ConflictReport) ∈
      detectConflicts
        [⟨"A", "GA", "d", [⟨Scope.computer, "c", "n", SettingState.enabled, some "1", "K"⟩],
           [⟨"OU=X", 1, false, true⟩], none⟩,
         ⟨"B", "GB", "d", [⟨Scope.computer, "c", "n", SettingState.disabled, some "1", "K"⟩],
           [⟨"OU=Y", 1, false, true⟩], none⟩] none := by decide
  have h := conflict_ambiguous_winner_unset _ _ hmem
  rcases h with ⟨h1, h2⟩ | ⟨g, _, hw, _, _⟩
  · exact ⟨h1, rfl⟩
  · cases hw

/-- Stripping the timestamp makes the domain extraction independent of the
ingestion instant. -/
lemma parseDomain_strip (fn : String) (fmt : DocFormat) (children : List RawNode)
    (t1 t2 : Nat) :
    (parseDomain fn fmt children t1).map stripIngest =
    (parseDomain fn fmt children t2).map stripIngest := by
  unfold parseDomain
  split <;> rfl

/-- C4: parsing is deterministic and idempotent: for every raw document and
format hint, two invocations of parse yield identical canonical records, and
the results of two invocations at different ingestion instants agree on every
field once the recorded ingestion timestamp is excluded. -/
theorem parse_deterministic_timestamp_independent (fileName : String)
    (doc : RawDocument) (hint : FormatHint) (t1 t2 : Nat) :
    parse fileName doc hint t1 = parse fileName doc hint t1 ∧
    (parse fileName doc hint t1).map stripIngest =
      (parse fileName doc hint t2).map stripIngest := by
  refine ⟨rfl, ?_⟩
  unfold parse
  split
  · rfl
  · split <;> first
      | rfl
      | apply parseDomain_strip
      | (split <;> first
          | rfl
          | apply parseDomain_strip
          | (split <;> rfl))

/-- C7: every file of an upload batch is processed independently, one parse
outcome per file; a parse failure in one file never hides the processing of
the others; the aggregate response fails exactly when some file failed, and
the client builds its alert from the success flag, the message and the whole
errors array. -/
theorem upload_batch_per_file (files : List RawFile) (t : Nat) :
    (processBatch files t).length = files.length ∧
    (∀ pre f post, files = pre ++ f :: post →
      processBatch files t =
        processBatch pre t ++
          (f.name, parse f.name f.doc f.hint t) :: processBatch post t) ∧
    ((batchResponse files t).success = false ↔
      ∃ r ∈ processBatch files t, ∃ e, r.2 = Except.error e) ∧
    (∀ m errs, uploadAlertMessage ⟨false, some m, errs⟩ =
      some (m ++ (if 0 < errs.length then
        "\n\nDetails:\n" ++ String.intercalate "\n" errs else ""))) ∧
    (∀ resp : UploadResponse, resp.success = true → uploadAlertMessage resp = none) := by
  refine ⟨List.length_map _ _, ?_, ?_, ?_, ?_⟩
  · intro pre f post hf
    subst hf
    unfold processBatch
    rw [List.map_append, List.map_cons]
  · have hsucc : (batchResponse files t).success =
        (fileErrors (processBatch files t)).isEmpty := rfl
    rw [hsucc]
    constructor
    · intro h
      by_contra hnone
      push_neg at hnone
      have hnil : fileErrors (processBatch files t) = [] := by
        apply List.filterMap_eq_nil_iff.mpr
        intro r hr
        cases hre : r.2 with
        | error e => exact absurd hre (hnone r hr e)
        | ok g => simp only [hre]
      rw [hnil] at h
      cases h
    · rintro ⟨r, hr, e, hre⟩
      have hmem : (e.file ++ ": " ++ e.reason) ∈ fileErrors (processBatch files t) := by
        refine List.mem_filterMap.mpr ⟨r, hr, ?_⟩
        simp only [hre]
      exact List.isEmpty_eq_false.mpr (List.ne_nil_of_mem hmem)
  · intro m errs
    rfl
  · intro resp hs
    unfold uploadAlertMessage
    rw [hs]
    rfl

/-- Witness for C7: a batch of a well-formed and an empty file is processed
file by file, the empty file failing on its own. -/
theorem upload_batch_per_file_witness :
    processBatch
      [⟨"a.xml", ⟨[RawNode.elem "GPO" [RawNode.elem "Name" [RawNode.text "G"]]]⟩,
        FormatHint.xmlHint⟩,
       ⟨"b.xml", ⟨[]⟩, FormatHint.xmlHint⟩] 5 =
    processBatch
      [⟨"a.xml", ⟨[RawNode.elem "GPO" [RawNode.elem "Name" [RawNode.text "G"]]]⟩,
        FormatHint.xmlHint⟩] 5 ++
      ("b.xml", parse "b.xml" ⟨[]⟩ FormatHint.xmlHint 5) :: processBatch [] 5 :=
  (upload_batch_per_file
    [⟨"a.xml", ⟨[RawNode.elem "GPO" [RawNode.elem "Name" [RawNode.text "G"]]]⟩,
      FormatHint.xmlHint⟩,
     ⟨"b.xml", ⟨[]⟩, FormatHint.xmlHint⟩] 5).2.1
    [⟨"a.xml", ⟨[RawNode.elem "GPO" [RawNode.elem "Name" [RawNode.text "G"]]]⟩,
      FormatHint.xmlHint⟩]
    ⟨"b.xml", ⟨[]⟩, FormatHint.xmlHint⟩ [] rfl

/-- C6: an object query for a term with no ingested single-object report and
no organizational-path interpretation returns the no-match type with an empty
applied-GPO list rather than an error, and the UI then renders the empty
no-applied-GPOs state instead of the table. -/
theorem object_query_no_data_empty (term : String) (repo : Repository)
    (hdirect : ∀ p ∈ repo.objectReports, p.1 ≠ term)
    (hpath : parseOrgPath term = none) :
    query term repo = ⟨MatchType.noMatch, []⟩ ∧
    objectResultsShowTable (query term repo) = false := by
  have hfind : (repo.objectReports.find? fun p => p.1 == term) = none := by
    apply List.find?_eq_none.mpr
    intro p hp
    simp [hdirect p hp]
  have hq : query term repo = ⟨MatchType.noMatch, []⟩ := by
    unfold query
    rw [hfind]
    simp only [hpath]
  exact ⟨hq, by rw [hq]; rfl⟩

/-- Witness for C6: a plain machine name with nothing ingested yields the
empty no-match result. -/
theorem object_query_no_data_empty_witness :
    query "Workstation01" ⟨[], []⟩ = ⟨MatchType.noMatch, []⟩ ∧
    objectResultsShowTable (query "Workstation01" ⟨[], []⟩) = false :=
  object_query_no_data_empty "Workstation01" ⟨[], []⟩
    (by intro p hp; cases hp) (by decide)

/-- A list holding two distinct elements has length at least two. -/
lemma two_le_length_of_mem_ne {α : Type} {a b : α} {l : List α}
    (ha : a ∈ l) (hb : b ∈ l) (hne : a ≠ b) : 2 ≤ l.length := by
  match l with
  | [] => cases ha
  | [x] =>
    simp only [List.mem_singleton] at ha hb
    exact absurd (ha.trans hb.symm) hne
  | x :: y :: t => simp [Nat.succ_le_succ]

/-- Over a list without duplicate keys, filterMap produces exactly one result
carrying the key of a surviving element. -/
lemma countP_filterMap_key {α β : Type} [DecidableEq α]
    (l : List α) (f : α → Option β) (key : β → α)
    (hkey : ∀ a b, f a = some b → key b = a)
    (hnd : l.Nodup) {σ : α} (hmem : σ ∈ l) {b : β} (hb : f σ = some b) :
    ((l.filterMap f).countP fun r => decide (key r = σ)) = 1 := by
  induction l with
  | nil => cases hmem
  | cons τ rest ih =>
    have hnd' := List.nodup_cons.mp hnd
    rw [List.filterMap_cons]
    rcases List.mem_cons.mp hmem with heq | hmemr
    · subst heq
      rw [hb, List.countP_cons]
      have hkb : decide (key b = σ) = true := decide_eq_true (hkey σ b hb)
      have hzero : ((rest.filterMap f).countP fun r => decide (key r = σ)) = 0 := by
        apply List.countP_eq_zero.mpr
        intro r hr
        rcases List.mem_filterMap.mp hr with ⟨a, haR, hfa⟩
        have hka : key r = a := hkey a r hfa
        simp only [hka, decide_eq_true_eq]
        intro hEq
        exact hnd'.1 (hEq ▸ haR)
      rw [hzero, hkb]
      rfl
    · have hτσ : τ ≠ σ := fun hEq => hnd'.1 (hEq ▸ hmemr)
      cases hfτ : f τ with
      | none => exact ih hnd'.2 hmemr
      | some r2 =>
        rw [List.countP_cons]
        have hpr : decide (key r2 = σ) = false := by
          simp only [hkey τ r2 hfτ, decide_eq_false_iff_not]
          exact hτσ
        rw [hpr, ih hnd'.2 hmemr]
        rfl

/-- C5: an identical setting (same scope, key, state and canonical value)
defined by two GPOs with distinct identifiers is flagged by the duplicate
detector in exactly one report for that setting identity, and that report
names both GPOs; precedence plays no role. -/
theorem duplicate_identical_setting_flagged_once
    (gpos : List GPO) (g1 g2 : GPO) (s1 s2 : PolicySetting)
    (hg1 : g1 ∈ gpos) (hg2 : g2 ∈ gpos) (hne : g1.id ≠ g2.id)
    (hs1 : s1 ∈ g1.settings) (hs2 : s2 ∈ g2.settings)
    (hsig : settingSig s1 = settingSig s2) :
    (∃ r ∈ detectDuplicates gpos, reportSig r = settingSig s1 ∧
       g1.id ∈ r.gpoIds ∧ g2.id ∈ r.gpoIds) ∧
    ((detectDuplicates gpos).countP fun r => decide (reportSig r = settingSig s1)) = 1 := by
  have hmem_sig : settingSig s1 ∈ duplicateSigs gpos := by
    unfold duplicateSigs
    refine List.mem_dedup.mpr (List.mem_flatMap.mpr ⟨g1, hg1, ?_⟩)
    exact List.mem_map.mpr ⟨s1, hs1, rfl⟩
  have hown1 : g1.id ∈ sigOwners gpos (settingSig s1) := by
    refine List.mem_filterMap.mpr ⟨g1, hg1, ?_⟩
    have hany : (g1.settings.any fun s => settingSig s == settingSig s1) = true :=
      List.any_eq_true.mpr ⟨s1, hs1, beq_iff_eq.mpr rfl⟩
    rw [hany]
    rfl
  have hown2 : g2.id ∈ sigOwners gpos (settingSig s1) := by
    refine List.mem_filterMap.mpr ⟨g2, hg2, ?_⟩
    have hany : (g2.settings.any fun s => settingSig s == settingSig s1) = true :=
      List.any_eq_true.mpr ⟨s2, hs2, beq_iff_eq.mpr hsig.symm⟩
    rw [hany]
    rfl
  have hlen : 2 ≤ (sigOwners gpos (settingSig s1)).length :=
    two_le_length_of_mem_ne hown1 hown2 hne
  have hF : (if 2 ≤ (sigOwners gpos (settingSig s1)).length then
      some (⟨(settingSig s1).1, (settingSig s1).2.1, (settingSig s1).2.2.1,
             (settingSig s1).2.2.2, sigOwners gpos (settingSig s1)⟩ : DuplicateReport)
    else none) =
      some ⟨(settingSig s1).1, (settingSig s1).2.1, (settingSig s1).2.2.1,
            (settingSig s1).2.2.2, sigOwners gpos (settingSig s1)⟩ := if_pos hlen
  constructor
  · refine ⟨⟨(settingSig s1).1, (settingSig s1).2.1, (settingSig s1).2.2.1,
        (settingSig s1).2.2.2, sigOwners gpos (settingSig s1)⟩, ?_, rfl, hown1, hown2⟩
    exact List.mem_filterMap.mpr ⟨settingSig s1, hmem_sig, hF⟩
  · unfold detectDuplicates
    refine countP_filterMap_key (duplicateSigs gpos)
      (fun sig => if 2 ≤ (sigOwners gpos sig).length then
          some ⟨sig.1, sig.2.1, sig.2.2.1, sig.2.2.2, sigOwners gpos sig⟩
        else none)
      reportSig ?_ (List.nodup_dedup _) hmem_sig hF
    intro a b hab
    simp only [] at hab
    split at hab
    · rw [← Option.some_inj.mp hab]
      rfl
    · cases hab

/-- Witness for C5: two GPOs both defining Audit:LogonEvents Enabled under
the Computer scope produce exactly one duplicate report naming both. -/
theorem duplicate_identical_setting_flagged_once_witness :
    (∃ r ∈ detectDuplicates
        [⟨"GA", "A", "d",
            [⟨Scope.computer, "Audit", "LogonEvents", SettingState.enabled, none,
              "Audit:LogonEvents"⟩], [], none⟩,
         ⟨"GB", "B", "d",
            [⟨Scope.computer, "Audit", "LogonEvents", SettingState.enabled, none,
              "Audit:LogonEvents"⟩], [], none⟩],
      reportSig r = (Scope.computer, "Audit:LogonEvents", SettingState.enabled, none) ∧
      "GA" ∈ r.gpoIds ∧ "GB" ∈ r.gpoIds) ∧
    ((detectDuplicates
        [⟨"GA", "A", "d",
            [⟨Scope.computer, "Audit", "LogonEvents", SettingState.enabled, none,
              "Audit:LogonEvents"⟩], [], none⟩,
         ⟨"GB", "B", "d",
            [⟨Scope.computer, "Audit", "LogonEvents", SettingState.enabled, none,
              "Audit:LogonEvents"⟩], [], none⟩]).countP
      fun r => decide (reportSig r =
        (Scope.computer, "Audit:LogonEvents", SettingState.enabled, none))) = 1 :=
  duplicate_identical_setting_flagged_once
    [⟨"GA", "A", "d",
        [⟨Scope.computer, "Audit", "LogonEvents", SettingState.enabled, none,
          "Audit:LogonEvents"⟩], [], none⟩,
     ⟨"GB", "B", "d",
        [⟨Scope.computer, "Audit", "LogonEvents", SettingState.enabled, none,
          "Audit:LogonEvents"⟩], [], none⟩]
    ⟨"GA", "A", "d",
        [⟨Scope.computer, "Audit", "LogonEvents", SettingState.enabled, none,
          "Audit:LogonEvents"⟩], [], none⟩
    ⟨"GB", "B", "d",
        [⟨Scope.computer, "Audit", "LogonEvents", SettingState.enabled, none,
          "Audit:LogonEvents"⟩], [], none⟩
    ⟨Scope.computer, "Audit", "LogonEvents", SettingState.enabled, none,
      "Audit:LogonEvents"⟩
    ⟨Scope.computer, "Audit", "LogonEvents", SettingState.enabled, none,
      "Audit:LogonEvents"⟩
    (by decide) (by decide) (by decide) (by decide) (by decide) (by decide)

/-- Witness for C10: a non-matching drop leaves the selection unchanged and a
matching drop adds the file. -/
theorem fileUpload_drop_filter_witness :
    handleDrop ["r.xml"] ["a.txt"] = ["r.xml"] ∧
    "b.html" ∈ handleDrop [] ["b.html", "c.pdf"] := by
  refine ⟨(fileUpload_drop_filter ["r.xml"] ["a.txt"] []).2.1 ?_,
          (fileUpload_drop_filter [] ["b.html", "c.pdf"] []).2.2.1 "b.html" ?_ ?_⟩
  · intro f hf
    simp only [List.mem_singleton] at hf
    subst hf
    decide
  · decide
  · decide

end GPOAnalysis
